import Mathlib

/-!
Verification of the SelenoVision shape-from-shading core.

The Python sources are shallowly embedded over the real numbers:
2D arrays become total functions `ℕ → ℕ → ℝ` with the array dimensions
carried alongside, numpy/scipy stencil operators become explicit
index-case definitions, and IEEE floats are idealised as exact reals.
-/

open Classical

noncomputable section

namespace Seleno

/-- A 2D grid of real values, indexed (row, column).  Dimensions are carried
separately; out-of-range cells exist mathematically but every theorem only
constrains in-range cells. -/
def Grid : Type := ℕ → ℕ → ℝ

/-- Row-major list of all entries of the `h × w` prefix of grid `Z`
(the flattened array, as numpy sees it). -/
def gridList {α : Type} (h w : ℕ) (Z : ℕ → ℕ → α) : List α :=
  (List.range h).flatMap (fun i => (List.range w).map (fun j => Z i j))

/-- `np.min` of a flattened nonempty array (0 on the empty list). -/
def listMin : List ℝ → ℝ
  | [] => 0
  | x :: xs => xs.foldl min x

/-- `np.max` of a flattened nonempty array (0 on the empty list). -/
def listMax : List ℝ → ℝ
  | [] => 0
  | x :: xs => xs.foldl max x

/-- `np.mean` of the flattened `h × w` grid. -/
def gridMean (h w : ℕ) (Z : Grid) : ℝ :=
  (gridList h w Z).sum / (h * w : ℕ)

/-- `np.mean(np.abs(...))` of the flattened `h × w` grid. -/
def gridMeanAbs (h w : ℕ) (Z : Grid) : ℝ :=
  ((gridList h w Z).map (fun x => |x|)).sum / (h * w : ℕ)

/-- `np.max` over the flattened `h × w` grid. -/
def gridMax (h w : ℕ) (Z : Grid) : ℝ :=
  listMax (gridList h w Z)

/-- `np.min` over the flattened `h × w` grid. -/
def gridMin (h w : ℕ) (Z : Grid) : ℝ :=
  listMin (gridList h w Z)

/-- Insert a value into a sorted list (ascending). -/
def insertSorted (x : ℝ) : List ℝ → List ℝ
  | [] => [x]
  | y :: ys => if x ≤ y then x :: y :: ys else y :: insertSorted x ys

/-- Ascending sort of a list of reals (`np.sort`). -/
def sortList : List ℝ → List ℝ
  | [] => []
  | x :: xs => insertSorted x (sortList xs)

/-- The fractional interpolation position `q/100 * (n-1)` used by
`np.percentile`. -/
def pctPos (l : List ℝ) (q : ℝ) : ℝ := q / 100 * ((l.length : ℝ) - 1)

/-- The lower bracketing index of the interpolation position. -/
def pctLo (l : List ℝ) (q : ℝ) : ℕ := Int.toNat ⌊pctPos l q⌋

/-- `np.percentile(l, q)` with numpy's default linear interpolation: sort,
take the fractional position `pctPos = q/100 * (n-1)` and linearly
interpolate between the two bracketing order statistics. -/
def percentile (l : List ℝ) (q : ℝ) : ℝ :=
  (sortList l).getD (pctLo l q) 0
    + (pctPos l q - (⌊pctPos l q⌋ : ℝ))
      * ((sortList l).getD (pctLo l q + 1) 0 - (sortList l).getD (pctLo l q) 0)

/-- `np.median`, which for the default linear interpolation coincides with the
50th percentile (mean of the two middle order statistics when `n` is even). -/
def npMedian (l : List ℝ) : ℝ := percentile l 50

/-- `np.gradient(Z)` along axis 1 (columns): central differences in the
interior of a row, one-sided differences at the first and last column. -/
def npGrad1 (w : ℕ) (Z : Grid) : Grid := fun i j =>
  if j = 0 then Z i 1 - Z i 0
  else if j = w - 1 then Z i (w - 1) - Z i (w - 2)
  else (Z i (j + 1) - Z i (j - 1)) / 2

/-- `np.gradient(Z)` along axis 0 (rows): central differences in the interior
of a column, one-sided differences at the first and last row. -/
def npGrad0 (h : ℕ) (Z : Grid) : Grid := fun i j =>
  if i = 0 then Z 1 j - Z 0 j
  else if i = h - 1 then Z (h - 1) j - Z (h - 2) j
  else (Z (i + 1) j - Z (i - 1) j) / 2

/-- `scipy.ndimage.laplace(Z, mode='constant', cval=0.0)`: sum over both axes
of the second difference `Z[i-1] + Z[i+1] - 2*Z[i]`, out-of-range neighbours
contributing the constant 0. -/
def laplaceConst (h w : ℕ) (Z : Grid) : Grid := fun i j =>
  (if 1 ≤ i then Z (i - 1) j else 0) + (if i + 1 < h then Z (i + 1) j else 0)
    + (if 1 ≤ j then Z i (j - 1) else 0) + (if j + 1 < w then Z i (j + 1) else 0)
    - 4 * Z i j

/-- Index folding for scipy's boundary mode `'reflect'`
(`(d c b a | a b c d | d c b a)`): fold `t` into `[0, 2n)` and mirror the
upper half. -/
def reflectIdx (n : ℕ) (t : ℤ) : ℕ :=
  if n = 0 then 0
  else
    let r := (t % (2 * n)).toNat
    if r < n then r else 2 * n - 1 - r

/-- `scipy.ndimage.laplace(Z)` with the default boundary mode `'reflect'`. -/
def laplaceReflect (h w : ℕ) (Z : Grid) : Grid := fun i j =>
  Z (reflectIdx h ((i : ℤ) - 1)) j + Z (reflectIdx h ((i : ℤ) + 1)) j
    + Z i (reflectIdx w ((j : ℤ) - 1)) + Z i (reflectIdx w ((j : ℤ) + 1))
    - 4 * Z i j

/-- Euclidean norm of a 3-vector (`np.linalg.norm`). -/
def norm3 (v : ℝ × ℝ × ℝ) : ℝ := Real.sqrt (v.1 ^ 2 + v.2.1 ^ 2 + v.2.2 ^ 2)

/-- Degrees to radians (`np.radians` / `np.deg2rad`). -/
def deg2rad (d : ℝ) : ℝ := d * (Real.pi / 180)

/-- `processor.compute_illumination_vector`: light direction from sun azimuth
and elevation in degrees; `x = cos(el)·sin(az)`, `y = cos(el)·cos(az)`,
`z = sin(el)`. -/
def compute_illumination_vector (azimuth_deg elevation_deg : ℝ) : ℝ × ℝ × ℝ :=
  (Real.cos (deg2rad elevation_deg) * Real.sin (deg2rad azimuth_deg),
   Real.cos (deg2rad elevation_deg) * Real.cos (deg2rad azimuth_deg),
   Real.sin (deg2rad elevation_deg))

/-- `sfs_photoclinometry.utils.get_light_vector`: the same direction vector,
explicitly divided by its Euclidean norm. -/
def get_light_vector (sun_azimuth_deg sun_elevation_deg : ℝ) : ℝ × ℝ × ℝ :=
  let v := compute_illumination_vector sun_azimuth_deg sun_elevation_deg
  (v.1 / norm3 v, v.2.1 / norm3 v, v.2.2 / norm3 v)

/-- `utils.calculate_surface_normals`: per-cell unit normal
`(-p, -q, 1)/max(‖(-p,-q,1)‖, 1e-9)` where `q, p = np.gradient(Z)`. -/
def calculate_surface_normals (h w : ℕ) (Z : Grid) : ℕ → ℕ → ℝ × ℝ × ℝ :=
  fun i j =>
    let p := npGrad1 w Z i j
    let q := npGrad0 h Z i j
    let nrm := max (norm3 (-p, -q, 1)) 1e-9
    (-p / nrm, -q / nrm, 1 / nrm)

/-- `utils.calculate_predicted_image`: Lambertian reflectance
`max(0, n · light)` from the unit normal field. -/
def calculate_predicted_image (h w : ℕ) (Z : Grid) (light : ℝ × ℝ × ℝ) : Grid :=
  fun i j =>
    let n := calculate_surface_normals h w Z i j
    max 0 (n.1 * light.1 + n.2.1 * light.2.1 + n.2.2 * light.2.2)

/-- `processor.compute_gradients`, cell by cell, after all five in-place
numpy assignments have been applied in program order (interior central
differences first, then the row-0 / row-(h-1) boundary writes, then the
column-0 / column-(w-1) boundary writes, later writes overwriting earlier
ones).  Note the row-boundary writes store the difference
`surface[1,:] - surface[0,:]`, a difference along axis 0. -/
def computeGradX (h w : ℕ) (Z : Grid) : Grid := fun i j =>
  if j = 0 then Z i 1 - Z i 0
  else if j = w - 1 then Z i (w - 1) - Z i (w - 2)
  else if i = 0 then Z 1 j - Z 0 j
  else if i = h - 1 then Z (h - 1) j - Z (h - 2) j
  else (Z i (j + 1) - Z i (j - 1)) / 2

/-- `processor.compute_gradients`, second returned array, same write order. -/
def computeGradY (h w : ℕ) (Z : Grid) : Grid := fun i j =>
  if j = 0 then Z i 1 - Z i 0
  else if j = w - 1 then Z i (w - 1) - Z i (w - 2)
  else if i = 0 then Z 1 j - Z 0 j
  else if i = h - 1 then Z (h - 1) j - Z (h - 2) j
  else (Z (i + 1) j - Z (i - 1) j) / 2

/-! ### `sfs_photoclinometry.core.sfs_cost_and_gradient` -/

/-- In `core.sfs_cost_and_gradient`, `p, q = np.gradient(Z)` binds `p` to the
axis-0 derivative and `q` to the axis-1 derivative (note: the opposite
convention from `utils.calculate_surface_normals`).  The embedding is total;
`np.gradient` itself raises on arrays with an extent below 2, so only grids
with `h, w ≥ 2` reflect real evaluator behaviour and concrete inputs in
theorems use such grids. -/
def coreP (h : ℕ) (Z : Grid) : Grid := npGrad0 h Z

/-- Second component of `np.gradient(Z)` as bound in `sfs_cost_and_gradient`. -/
def coreQ (w : ℕ) (Z : Grid) : Grid := npGrad1 w Z

/-- `denom = np.maximum(np.sqrt(1 + p**2 + q**2), 1e-8)`. -/
def coreDenom (h w : ℕ) (Z : Grid) : Grid := fun i j =>
  max (Real.sqrt (1 + coreP h Z i j ^ 2 + coreQ w Z i j ^ 2)) 1e-8

/-- `predicted_reflectance = np.maximum(0, nx*lx + ny*ly + nz*lz)` with
`nx = -p/denom`, `ny = -q/denom`, `nz = 1/denom`. -/
def predictedReflectance (h w : ℕ) (Z : Grid) (l : ℝ × ℝ × ℝ) : Grid := fun i j =>
  let d := coreDenom h w Z i j
  max 0 ((-coreP h Z i j / d) * l.1 + (-coreQ w Z i j / d) * l.2.1 + (1 / d) * l.2.2)

/-- The value `dR_dp` that `sfs_cost_and_gradient` assigns inside the
illuminated mask. -/
def dRdp (h w : ℕ) (Z : Grid) (l : ℝ × ℝ × ℝ) : Grid := fun i j =>
  let p := coreP h Z i j
  let q := coreQ w Z i j
  let d := coreDenom h w Z i j
  (l.1 * d + p * (l.1 * p + l.2.1 * q + l.2.2)) / d ^ 3

/-- The value `dR_dq` that `sfs_cost_and_gradient` assigns inside the
illuminated mask. -/
def dRdq (h w : ℕ) (Z : Grid) (l : ℝ × ℝ × ℝ) : Grid := fun i j =>
  let p := coreP h Z i j
  let q := coreQ w Z i j
  let d := coreDenom h w Z i j
  (l.2.1 * d + q * (l.1 * p + l.2.1 * q + l.2.2)) / d ^ 3

/-- `full_grad_p`: the slope-space gradient array handed to the divergence —
`brightness_error * dR_dp` at pixels of the mask
`predicted_reflectance > 1e-6`, and exactly zero elsewhere. -/
def fullGradP (h w : ℕ) (Z obs : Grid) (l : ℝ × ℝ × ℝ) : Grid := fun i j =>
  if predictedReflectance h w Z l i j > 1e-6 then
    (obs i j - calculate_predicted_image h w Z l i j) * dRdp h w Z l i j
  else 0

/-- `full_grad_q`, analogously. -/
def fullGradQ (h w : ℕ) (Z obs : Grid) (l : ℝ × ℝ × ℝ) : Grid := fun i j =>
  if predictedReflectance h w Z l i j > 1e-6 then
    (obs i j - calculate_predicted_image h w Z l i j) * dRdq h w Z l i j
  else 0

/-- `np.any(mask)` over the `h × w` array. -/
def anyIlluminated (h w : ℕ) (Z : Grid) (l : ℝ × ℝ × ℝ) : Prop :=
  ∃ i < h, ∃ j < w, predictedReflectance h w Z l i j > 1e-6

/-- The photometric (brightness) part of the height-space gradient:
`-np.gradient(full_grad_p, axis=1) - np.gradient(full_grad_q, axis=0)`,
computed only when some pixel is illuminated. -/
def brightnessGradient (h w : ℕ) (Z obs : Grid) (l : ℝ × ℝ × ℝ) : Grid :=
  if anyIlluminated h w Z l then
    fun i j =>
      -(npGrad1 w (fullGradP h w Z obs l) i j) - npGrad0 h (fullGradQ h w Z obs l) i j
  else fun _ _ => 0

/-- The regularisation part of the gradient:
`lambda_reg * laplace(laplace(Z, mode='constant'), mode='constant')`. -/
def smoothnessGradient (h w : ℕ) (Z : Grid) (lam : ℝ) : Grid := fun i j =>
  lam * laplaceConst h w (laplaceConst h w Z) i j

/-- `brightness_cost = 0.5 * sum((observed - predicted)**2)`. -/
def brightnessCost (h w : ℕ) (Z obs : Grid) (l : ℝ × ℝ × ℝ) : ℝ :=
  0.5 * (gridList h w (fun i j => (obs i j - calculate_predicted_image h w Z l i j) ^ 2)).sum

/-- `smoothness_cost = 0.5 * lambda_reg * sum(laplace(Z)**2)`. -/
def smoothnessCost (h w : ℕ) (Z : Grid) (lam : ℝ) : ℝ :=
  0.5 * lam * (gridList h w (fun i j => laplaceConst h w Z i j ^ 2)).sum

/-- `core.sfs_cost_and_gradient`: scalar cost and full height-space
gradient grid. -/
def sfs_cost_and_gradient (h w : ℕ) (Z obs : Grid) (l : ℝ × ℝ × ℝ) (lam : ℝ) :
    ℝ × Grid :=
  (brightnessCost h w Z obs l + smoothnessCost h w Z lam,
   fun i j => brightnessGradient h w Z obs l i j + smoothnessGradient h w Z lam i j)

/-! ### `processor` rendering and smoothing -/

/-- `processor.compute_reflectance_map`: normals without a denominator floor,
then `max(0, n · light)`. -/
def compute_reflectance_map (gx gy : Grid) (l : ℝ × ℝ × ℝ) : Grid := fun i j =>
  let nf := Real.sqrt (gx i j ^ 2 + gy i j ^ 2 + 1)
  max 0 ((-gx i j / nf) * l.1 + (-gy i j / nf) * l.2.1 + (1 / nf) * l.2.2)

/-- Kernel radius of `scipy.ndimage.gaussian_filter`:
`int(truncate * sigma + 0.5)` with the default `truncate = 4.0`. -/
def gaussRadius (sigma : ℝ) : ℕ := (⌊4 * sigma + 1 / 2⌋).toNat

/-- Unnormalised Gaussian kernel weight `exp(-x² / (2σ²))`. -/
def gaussWeight (sigma : ℝ) (x : ℤ) : ℝ :=
  Real.exp (-((x : ℝ) ^ 2) / (2 * sigma ^ 2))

/-- Sum of the kernel weights over the truncated support. -/
def gaussWeightSum (sigma : ℝ) : ℝ :=
  ∑ k ∈ Finset.Icc (-(gaussRadius sigma : ℤ)) (gaussRadius sigma), gaussWeight sigma k

/-- One-dimensional Gaussian correlation along axis 0 with normalised weights
and boundary mode `'reflect'`. -/
def gaussBlur0 (h : ℕ) (sigma : ℝ) (Z : Grid) : Grid := fun i j =>
  (∑ k ∈ Finset.Icc (-(gaussRadius sigma : ℤ)) (gaussRadius sigma),
      gaussWeight sigma k * Z (reflectIdx h ((i : ℤ) + k)) j) / gaussWeightSum sigma

/-- One-dimensional Gaussian correlation along axis 1. -/
def gaussBlur1 (w : ℕ) (sigma : ℝ) (Z : Grid) : Grid := fun i j =>
  (∑ k ∈ Finset.Icc (-(gaussRadius sigma : ℤ)) (gaussRadius sigma),
      gaussWeight sigma k * Z i (reflectIdx w ((j : ℤ) + k))) / gaussWeightSum sigma

/-- `scipy.ndimage.gaussian_filter(Z, sigma)` on a 2D array: the separable
1D filter applied along axis 0 and then along axis 1. -/
def gaussian_filter (h w : ℕ) (sigma : ℝ) (Z : Grid) : Grid :=
  gaussBlur1 w sigma (gaussBlur0 h sigma Z)

/-- `processor.bilateral_filter`: Gaussian blur, then per-cell blend
`w*Z + (1-w)*blur` with `w = exp(-0.5*((Z - blur)/sigma_color)**2)`. -/
def bilateral_filter (h w : ℕ) (Z : Grid) (sigma_color sigma_spatial : ℝ) : Grid :=
  fun i j =>
    let filtered := gaussian_filter h w sigma_spatial Z
    let wgt := Real.exp (-0.5 * ((Z i j - filtered i j) / sigma_color) ^ 2)
    wgt * Z i j + (1 - wgt) * filtered i j

/-- Reference definition of the edge-preserving smoother, written from the
specification's own words: let `blur` be the Gaussian blur of `Z` with
`σ_spatial`; the output at each cell is `w·Z + (1−w)·blur` with
`w = exp(−0.5·((Z − blur)/σ_color)²)`. -/
def edgePreservingSmootherSpec (h w : ℕ) (Z : Grid) (sigma_color sigma_spatial : ℝ) :
    Grid := fun i j =>
  let blur := gaussian_filter h w sigma_spatial Z
  let wgt := Real.exp (-0.5 * ((Z i j - blur i j) / sigma_color) ^ 2)
  wgt * Z i j + (1 - wgt) * blur i j

/-! ### `processor.optimize_surface_sfs` -/

/-- The recognised values of `config["initial_surface"]`. -/
inductive InitMode where
  | flat
  | random
  | other

/-- The configuration fields consumed by `optimize_surface_sfs` and
`bilateral_filter`. -/
structure SFSConfig where
  initial_surface : InitMode
  max_iterations : ℕ
  convergence_threshold : ℝ
  regularization_lambda : ℝ
  adaptive_regularization : Bool
  use_bilateral_filter : Bool
  bilateral_sigma_color : ℝ
  bilateral_sigma_spatial : ℝ
  smoothing_factor : ℝ
  feature_enhancement : Bool

/-- The initial surface: zeros for `"flat"`, a draw of
`np.random.normal(0, 0.1, (h, w))` — modelled by the ambient `noise` grid —
for `"random"`, and zeros for any other value. -/
def initialSurface (cfg : SFSConfig) (noise : Grid) : Grid :=
  match cfg.initial_surface with
  | .flat => fun _ _ => 0
  | .random => noise
  | .other => fun _ _ => 0

/-- Per-iteration photometric residual `R_computed - image` of the momentum
solver, built from the (buggy-boundary) `compute_gradients`. -/
def stepResidual (h w : ℕ) (image s : Grid) (l : ℝ × ℝ × ℝ) : Grid := fun i j =>
  compute_reflectance_map (computeGradX h w s) (computeGradY h w s) l i j - image i j

/-- `np.sqrt(image_grad_x**2 + image_grad_y**2)` for the observed image. -/
def imageGradMag (h w : ℕ) (image : Grid) : Grid := fun i j =>
  Real.sqrt (npGrad0 h image i j ^ 2 + npGrad1 w image i j ^ 2)

/-- `edge_weight = 1.0 + 3.0 * image_grad_mag / (image_grad_mag.max() + 1e-8)`. -/
def edgeWeight (h w : ℕ) (image : Grid) : Grid := fun i j =>
  1 + 3 * imageGradMag h w image i j / (gridMax h w (imageGradMag h w image) + 1e-8)

/-- `np.sqrt(grad_x**2 + grad_y**2)` for the current surface
(from `compute_gradients`). -/
def surfaceGradMag (h w : ℕ) (s : Grid) : Grid := fun i j =>
  Real.sqrt (computeGradX h w s i j ^ 2 + computeGradY h w s i j ^ 2)

/-- The regularisation contribution that `optimize_surface_sfs` adds to
`grad_objective`: nothing at all unless `lambda_reg > 0`; with adaptive
regularisation the feature-masked weight times `laplace(surface)`
(default `'reflect'` boundary mode), otherwise `lambda_reg * laplace(surface)`. -/
def processorRegTerm (h w : ℕ) (s : Grid) (lam : ℝ) (adaptive : Bool) : Grid :=
  if lam > 0 then
    if adaptive then
      fun i j =>
        lam * (0.5 + 0.5 * (1 - surfaceGradMag h w s i j /
            (gridMax h w (surfaceGradMag h w s) + 1e-8))) * laplaceReflect h w s i j
    else fun i j => lam * laplaceReflect h w s i j
  else fun _ _ => 0

/-- The photometric part of `grad_objective`: `2 * residual`, multiplied by
the edge-aware weight when feature enhancement is on. -/
def photometricGradObjective (h w : ℕ) (image s : Grid) (l : ℝ × ℝ × ℝ)
    (feat : Bool) : Grid := fun i j =>
  let base := 2 * stepResidual h w image s l i j
  if feat then base * edgeWeight h w image i j else base

/-- The full `grad_objective` of one momentum-solver iteration. -/
def gradObjective (h w : ℕ) (image s : Grid) (l : ℝ × ℝ × ℝ) (cfg : SFSConfig) :
    Grid := fun i j =>
  photometricGradObjective h w image s l cfg.feature_enhancement i j
    + processorRegTerm h w s cfg.regularization_lambda cfg.adaptive_regularization i j

/-- Result of one iteration of the `optimize_surface_sfs` loop body. -/
structure StepOut where
  surface : Grid
  momentum : Grid
  residualRec : ℝ
  gradRec : ℝ
  changeRec : ℝ

/-- One full iteration of the `optimize_surface_sfs` loop body at iteration
index `t`: gradient objective, momentum (or plain descent) update, periodic
bilateral filtering, and the three per-iteration trace records. -/
def sfsStep (h w : ℕ) (image : Grid) (l : ℝ × ℝ × ℝ) (cfg : SFSConfig) (t : ℕ)
    (s m : Grid) : StepOut :=
  let g := gradObjective h w image s l cfg
  let sm : Grid × Grid :=
    if cfg.adaptive_regularization then
      let step_size : ℝ := 0.012 / (1 + (t : ℝ) * 0.0003)
      let momentum_factor : ℝ := 0.85 / (1 + (t : ℝ) * 0.001)
      let mom : Grid := fun i j => momentum_factor * m i j - step_size * g i j
      ((fun i j => s i j + mom i j), mom)
    else
      ((fun i j => s i j - 0.01 * g i j), m)
  let s2 : Grid :=
    if cfg.use_bilateral_filter = true ∧ t % 10 = 0 then
      bilateral_filter h w sm.1 cfg.bilateral_sigma_color cfg.bilateral_sigma_spatial
    else sm.1
  { surface := s2
    momentum := sm.2
    residualRec := (gridList h w (fun i j => stepResidual h w image s l i j ^ 2)).sum
    gradRec := gridMeanAbs h w g
    changeRec := gridMeanAbs h w (fun i j => s2 i j - s i j) }

/-- The solver's diagnostic trace: the three per-iteration record lists plus
the `iterations` counter (`last executed index + 1`). -/
structure SFSHistory where
  residuals : List ℝ
  gradients : List ℝ
  convergence : List ℝ
  iterations : ℕ

/-- The `for iteration in range(max_iter)` loop of `optimize_surface_sfs`,
with the early `break` when `surface_change < conv_threshold`.  `t` is the
current iteration index and `fuel` the number of iterations left in the
budget. -/
def sfsLoop (h w : ℕ) (image : Grid) (l : ℝ × ℝ × ℝ) (cfg : SFSConfig) :
    ℕ → ℕ → Grid → Grid → SFSHistory → Grid × Grid × SFSHistory
  | _, 0, s, m, hist => (s, m, hist)
  | t, fuel + 1, s, m, hist =>
    let o := sfsStep h w image l cfg t s m
    let hist' : SFSHistory :=
      { residuals := hist.residuals ++ [o.residualRec]
        gradients := hist.gradients ++ [o.gradRec]
        convergence := hist.convergence ++ [o.changeRec]
        iterations := t + 1 }
    if o.changeRec < cfg.convergence_threshold then (o.surface, o.momentum, hist')
    else sfsLoop h w image l cfg (t + 1) fuel o.surface o.momentum hist'

/-- `processor.optimize_surface_sfs`: run the loop from the seeded surface and
zero momentum, then apply the final Gaussian smoothing pass.  Returns the
best-effort surface together with the trace. -/
def optimize_surface_sfs (h w : ℕ) (image : Grid) (l : ℝ × ℝ × ℝ)
    (cfg : SFSConfig) (noise : Grid) : Grid × SFSHistory :=
  let r := sfsLoop h w image l cfg 0 cfg.max_iterations (initialSurface cfg noise)
    (fun _ _ => 0) ⟨[], [], [], 0⟩
  (gaussian_filter h w cfg.smoothing_factor r.1, r.2.2)

/-- The break-free iterate sequence of the solver: the surface/momentum state
after `k` loop iterations, ignoring the convergence test. -/
def sfsTraj (h w : ℕ) (image : Grid) (l : ℝ × ℝ × ℝ) (cfg : SFSConfig)
    (noise : Grid) : ℕ → Grid × Grid
  | 0 => (initialSurface cfg noise, fun _ _ => 0)
  | k + 1 =>
    let p := sfsTraj h w image l cfg noise k
    let o := sfsStep h w image l cfg k p.1 p.2
    (o.surface, o.momentum)

/-- The loop-body output at iteration `k` along the break-free trajectory. -/
def sfsStepAt (h w : ℕ) (image : Grid) (l : ℝ × ℝ × ℝ) (cfg : SFSConfig)
    (noise : Grid) (k : ℕ) : StepOut :=
  sfsStep h w image l cfg k (sfsTraj h w image l cfg noise k).1
    (sfsTraj h w image l cfg noise k).2

/-- The convergence flag the service layer reports
(`luna_processor._process_image`):
`history['iterations'] < CONFIG["max_iterations"]`. -/
def lunaConverged (hist : SFSHistory) (cfg : SFSConfig) : Bool :=
  decide (hist.iterations < cfg.max_iterations)

/-! ### `processor.scale_dem_to_physical` -/

/-- The configuration fields consumed by `scale_dem_to_physical`. -/
structure ScaleConfig where
  adaptive_normalization : Bool
  feature_enhancement : Bool
  dem_min_height : ℝ
  dem_max_height : ℝ

/-- `np.clip(x, 0, 1)`. -/
def clip01 (x : ℝ) : ℝ := min (max x 0) 1

/-- `np.std`: population standard deviation of the flattened grid. -/
def gridStd (h w : ℕ) (Z : Grid) : ℝ :=
  Real.sqrt (gridMean h w (fun i j => (Z i j - gridMean h w Z) ^ 2))

/-- The normalised surface of `scale_dem_to_physical`: robust
percentile/median scaling (with the `p99 > p1` guard and min–max fallback)
when adaptive normalisation is on, plain min–max scaling otherwise.  Both
min–max paths guard the denominator with `max(range, 1e-8)`. -/
def scaleNorm (h w : ℕ) (Z : Grid) (cfg : ScaleConfig) : Grid :=
  if cfg.adaptive_normalization then
    if percentile (gridList h w Z) 99 > percentile (gridList h w Z) 1 then
      fun i j => clip01 ((Z i j - npMedian (gridList h w Z)) /
        (percentile (gridList h w Z) 99 - percentile (gridList h w Z) 1) * 0.4 + 0.5)
    else
      fun i j => (Z i j - gridMin h w Z) / max (gridMax h w Z - gridMin h w Z) 1e-8
  else
    fun i j => (Z i j - gridMin h w Z) / max (gridMax h w Z - gridMin h w Z) 1e-8

/-- Fisher skewness as computed in `scale_dem_to_physical`:
`mean((N - N.mean())**3) / (N.std()**3 + 1e-8)`. -/
def surfaceSkew (h w : ℕ) (N : Grid) : ℝ :=
  gridMean h w (fun i j => (N i j - gridMean h w N) ^ 3) / (gridStd h w N ^ 3 + 1e-8)

/-- The gamma exponent chosen from the skewness of the normalised surface. -/
def gammaOf (skew : ℝ) : ℝ :=
  if skew > 0.1 then 0.7 else if skew < -0.1 then 1.3 else 0.85

/-- The normalised surface after the optional skew-driven gamma correction
(`surface_norm = np.power(surface_norm, gamma)` when feature enhancement is
enabled). -/
def normEnhanced (h w : ℕ) (Z : Grid) (cfg : ScaleConfig) : Grid :=
  if cfg.feature_enhancement then
    fun i j => scaleNorm h w Z cfg i j ^ gammaOf (surfaceSkew h w (scaleNorm h w Z cfg))
  else scaleNorm h w Z cfg

/-- `processor.scale_dem_to_physical`: normalise, optionally gamma-correct,
and map linearly into `[dem_min_height, dem_max_height]`. -/
def scale_dem_to_physical (h w : ℕ) (Z : Grid) (cfg : ScaleConfig) : Grid :=
  fun i j =>
    cfg.dem_min_height + normEnhanced h w Z cfg i j * (cfg.dem_max_height - cfg.dem_min_height)

/-! ### `processor.load_and_validate_image` and the service pipeline

The validation step checks for emptiness and for non-finite (NaN/±Inf)
values, which the idealised reals cannot represent; pixel values are
therefore modelled by an explicit IEEE-style value type. -/

/-- An IEEE-754 double idealised as either a finite real or one of the
non-finite values NaN, `+inf`, `-inf`. -/
inductive Px where
  | num (x : ℝ)
  | nan
  | pinf
  | ninf

/-- `np.isfinite` on a single value. -/
def Px.isFinite : Px → Bool
  | .num _ => true
  | _ => false

/-- A grid of IEEE-style pixel values (decoded image before validation). -/
def PxGrid : Type := ℕ → ℕ → Px

/-- `np.maximum` on two values: NaN propagates, otherwise the larger value. -/
def pxMaxPair (a b : Px) : Px :=
  match a, b with
  | .nan, _ => .nan
  | _, .nan => .nan
  | .pinf, _ => .pinf
  | _, .pinf => .pinf
  | .ninf, x => x
  | x, .ninf => x
  | .num x, .num y => .num (max x y)

/-- `np.ndarray.max` of a flattened array (`maximum.reduce`): NaN-propagating
fold; `.num 0` on the empty list (numpy would raise there, but the empty case
is rejected by validation anyway). -/
def pxListMax : List Px → Px
  | [] => .num 0
  | x :: xs => xs.foldl pxMaxPair x

/-- IEEE comparison `v > 1.0` (False for NaN). -/
def pxGtOne : Px → Prop
  | .num x => x > 1
  | .pinf => True
  | _ => False

/-- IEEE division as used by the max-normalisation step. -/
def pxDiv (a b : Px) : Px :=
  match a, b with
  | .nan, _ => .nan
  | _, .nan => .nan
  | .num x, .num y => .num (x / y)
  | .num _, .pinf => .num 0
  | .num _, .ninf => .num 0
  | .pinf, .pinf => .nan
  | .pinf, .ninf => .nan
  | .ninf, .pinf => .nan
  | .ninf, .ninf => .nan
  | .pinf, .num y => if y ≥ 0 then .pinf else .ninf
  | .ninf, .num y => if y ≥ 0 then .ninf else .pinf

/-- The float64 branch of the dtype normalisation in
`processor.load_and_validate_image`: rescale by the array maximum when it
exceeds 1 (integer dtypes cannot hold non-finite values, so the float64
branch is the one the non-finite checks can see). -/
def normalizedImage (h w : ℕ) (img : PxGrid) : PxGrid :=
  if pxGtOne (pxListMax (gridList h w img)) then
    fun i j => pxDiv (img i j) (pxListMax (gridList h w img))
  else img

/-- The validation checks proper: reject empty arrays, then arrays that still
contain non-finite values after normalisation. -/
def load_and_validate_image (h w : ℕ) (img : PxGrid) : Except String PxGrid :=
  if h * w = 0 then Except.error "Image is empty"
  else if ∃ i < h, ∃ j < w, ¬ (normalizedImage h w img i j).isFinite = true then
    Except.error "Image contains non-finite values"
  else Except.ok (normalizedImage h w img)

/-- Read a validated pixel back as a real (validation guarantees finiteness). -/
def Px.toReal : Px → ℝ
  | .num x => x
  | _ => 0

/-- The processing pipeline of `luna_processor._process_image` up to the
solver: load/validate, then run `optimize_surface_sfs` on the validated
image.  A validation failure short-circuits: the solver is never entered and
the raised error propagates to the job's failure handler (which records the
failure and re-raises — there is no retry). -/
def luna_process (h w : ℕ) (img : PxGrid) (l : ℝ × ℝ × ℝ) (cfg : SFSConfig)
    (noise : Grid) : Except String (Grid × SFSHistory) :=
  (load_and_validate_image h w img).map
    (fun v => optimize_surface_sfs h w (fun i j => (v i j).toReal) l cfg noise)

/-! ### Helper lemmas -/

lemma norm3_illum (az el : ℝ) : norm3 (compute_illumination_vector az el) = 1 := by
  have h1 := Real.sin_sq_add_cos_sq (deg2rad az)
  have h2 := Real.sin_sq_add_cos_sq (deg2rad el)
  have hsum : (compute_illumination_vector az el).1 ^ 2
      + (compute_illumination_vector az el).2.1 ^ 2
      + (compute_illumination_vector az el).2.2 ^ 2 = 1 := by
    simp only [compute_illumination_vector]
    nlinarith [h1, h2]
  rw [norm3, hsum, Real.sqrt_one]

lemma gridMeanAbs_nonneg (h w : ℕ) (G : Grid) : 0 ≤ gridMeanAbs h w G := by
  apply div_nonneg _ (Nat.cast_nonneg _)
  apply List.sum_nonneg
  intro x hx
  rcases List.mem_map.mp hx with ⟨y, _, rfl⟩
  exact abs_nonneg y

/-! ### C8 — the illumination model -/

/-- C8: for all (finite) azimuth and elevation inputs, the light direction has
the component form `x = cos(el)·sin(az)`, `y = cos(el)·cos(az)`,
`z = sin(el)` (angles first converted from degrees to radians), its Euclidean
norm is exactly 1 — in particular within tolerance 1e-9 — and the explicitly
normalised `get_light_vector` agrees with it.  Both embeddings are total, so
no error can arise for any input. -/
theorem light_direction_unit_norm (az el : ℝ) :
    compute_illumination_vector az el =
      (Real.cos (deg2rad el) * Real.sin (deg2rad az),
       Real.cos (deg2rad el) * Real.cos (deg2rad az),
       Real.sin (deg2rad el)) ∧
    norm3 (compute_illumination_vector az el) = 1 ∧
    |norm3 (compute_illumination_vector az el) - 1| ≤ 1e-9 ∧
    get_light_vector az el = compute_illumination_vector az el := by
  refine ⟨rfl, norm3_illum az el, ?_, ?_⟩
  · rw [norm3_illum az el]
    norm_num
  · show (let v := compute_illumination_vector az el;
      ((v.1 / norm3 v, v.2.1 / norm3 v, v.2.2 / norm3 v) : ℝ × ℝ × ℝ)) = _
    simp only [norm3_illum az el, div_one]

/-! ### C9 — unit normals -/

/-- C9: every cell of the normal field derived by
`utils.calculate_surface_normals` — `normalize(-∂Z/∂x, -∂Z/∂y, 1)` with the
denominator clamped below by 1e-9 — has Euclidean norm exactly 1, in
particular within tolerance 1e-6.  The clamp never engages because the
unnormalised normal has norm `√(p²+q²+1) ≥ 1`. -/
theorem normal_field_unit_norm (h w : ℕ) (Z : Grid) (i j : ℕ) :
    norm3 (calculate_surface_normals h w Z i j) = 1 ∧
    |norm3 (calculate_surface_normals h w Z i j) - 1| ≤ 1e-6 := by
  have hmain : norm3 (calculate_surface_normals h w Z i j) = 1 := by
    simp only [calculate_surface_normals, norm3]
    set p := npGrad1 w Z i j with hp
    set q := npGrad0 h Z i j with hq
    have hs1 : (1 : ℝ) ≤ (-p) ^ 2 + (-q) ^ 2 + 1 ^ 2 := by nlinarith [sq_nonneg p, sq_nonneg q]
    have hs0 : (0 : ℝ) ≤ (-p) ^ 2 + (-q) ^ 2 + 1 ^ 2 := by linarith
    have hsq1 : (1 : ℝ) ≤ Real.sqrt ((-p) ^ 2 + (-q) ^ 2 + 1 ^ 2) := by
      calc (1 : ℝ) = Real.sqrt 1 := Real.sqrt_one.symm
        _ ≤ _ := Real.sqrt_le_sqrt hs1
    have hmax : max (Real.sqrt ((-p) ^ 2 + (-q) ^ 2 + 1 ^ 2)) 1e-9
        = Real.sqrt ((-p) ^ 2 + (-q) ^ 2 + 1 ^ 2) :=
      max_eq_left (le_trans (by norm_num) hsq1)
    rw [hmax]
    have hpos : (0 : ℝ) < Real.sqrt ((-p) ^ 2 + (-q) ^ 2 + 1 ^ 2) := lt_of_lt_of_le one_pos hsq1
    have hinner : (-p / Real.sqrt ((-p) ^ 2 + (-q) ^ 2 + 1 ^ 2)) ^ 2
        + (-q / Real.sqrt ((-p) ^ 2 + (-q) ^ 2 + 1 ^ 2)) ^ 2
        + (1 / Real.sqrt ((-p) ^ 2 + (-q) ^ 2 + 1 ^ 2)) ^ 2 = 1 := by
      have hsqr : Real.sqrt ((-p) ^ 2 + (-q) ^ 2 + 1 ^ 2) ^ 2
          = (-p) ^ 2 + (-q) ^ 2 + 1 ^ 2 := Real.sq_sqrt hs0
      field_simp
    rw [hinner, Real.sqrt_one]
  exact ⟨hmain, by rw [hmain]; norm_num⟩

/-! ### C7 — the edge-preserving smoother -/

/-- C7: for every height field and positive `σ_color`, `σ_spatial`, the
implemented `bilateral_filter` coincides cell-for-cell with the reference
definition written from the spec (`w·Z + (1−w)·blur`,
`w = exp(−0.5·((Z − blur)/σ_color)²)`, `blur` the Gaussian blur with
`σ_spatial`).  Determinism is intrinsic: both sides are functions of
`(Z, σ_color, σ_spatial)` alone. -/
theorem bilateral_filter_matches_spec (h w : ℕ) (Z : Grid) (sc ss : ℝ)
    (_hsc : 0 < sc) (_hss : 0 < ss) :
    ∀ i j, bilateral_filter h w Z sc ss i j = edgePreservingSmootherSpec h w Z sc ss i j :=
  fun _ _ => rfl

/-- Witness for C7 at a concrete input. -/
theorem bilateral_filter_matches_spec_witness :
    (0 : ℝ) < 1 ∧
    ∀ i j, bilateral_filter 1 1 (fun _ _ => 0) 1 1 i j
      = edgePreservingSmootherSpec 1 1 (fun _ _ => 0) 1 1 i j :=
  ⟨by norm_num,
   bilateral_filter_matches_spec 1 1 (fun _ _ => 0) 1 1 (by norm_num) (by norm_num)⟩

/-! ### C3 — masked slope-space gradient -/

/-- C3: in `sfs_cost_and_gradient`, any pixel whose recomputed predicted
reflectance is at the clamp floor (not above the threshold `1e-6`) has both
slope-space gradient components `full_grad_p`, `full_grad_q` exactly zero —
the arrays that are subsequently fed to the discrete divergence. -/
theorem clamped_reflectance_zero_slope_gradient (h w : ℕ) (Z obs : Grid)
    (l : ℝ × ℝ × ℝ) (i j : ℕ)
    (hclamp : predictedReflectance h w Z l i j ≤ 1e-6) :
    fullGradP h w Z obs l i j = 0 ∧ fullGradQ h w Z obs l i j = 0 := by
  constructor
  · simp only [fullGradP, if_neg (not_lt.mpr hclamp)]
  · simp only [fullGradQ, if_neg (not_lt.mpr hclamp)]

/-- Witness for C3: the flat surface lit from below is entirely at the clamp
floor, and its slope-space gradient contributions vanish. -/
theorem clamped_reflectance_zero_slope_gradient_witness :
    predictedReflectance 2 2 (fun _ _ => 0) (0, 0, -1) 0 0 ≤ 1e-6 ∧
    (fullGradP 2 2 (fun _ _ => 0) (fun _ _ => 0) (0, 0, -1) 0 0 = 0 ∧
     fullGradQ 2 2 (fun _ _ => 0) (fun _ _ => 0) (0, 0, -1) 0 0 = 0) := by
  have hc : predictedReflectance 2 2 (fun _ _ => 0) (0, 0, -1) 0 0 ≤ 1e-6 := by
    norm_num [predictedReflectance, coreDenom, coreP, coreQ, npGrad0, npGrad1,
      Real.sqrt_one]
  exact ⟨hc,
    clamped_reflectance_zero_slope_gradient 2 2 (fun _ _ => 0) (fun _ _ => 0)
      (0, 0, -1) 0 0 hc⟩

/-! ### C2 — regularisation gradient for non-positive λ -/

/-- Counterexample to C2 as stated: in `sfs_cost_and_gradient` with
`λ = -1 ≤ 0`, the 2×2 all-ones height field has regularisation gradient
`λ·∇⁴Z = -4 ≠ 0` at cell (0,0) (the inner constant-padded Laplacian is -2 at
every cell, the outer one is 4), so for negative λ the evaluator's
regularisation gradient is not the zero field (only the momentum solver
guards on `λ > 0`). -/
theorem smoothness_gradient_negative_lambda_nonzero :
    ((-1 : ℝ) ≤ 0) ∧
    smoothnessGradient 2 2 (fun _ _ => 1) (-1) 0 0 = -4 ∧
    (-4 : ℝ) ≠ 0 := by
  refine ⟨by norm_num, ?_, by norm_num⟩
  norm_num [smoothnessGradient, laplaceConst]

/-- C2 (amended): the momentum solver `optimize_surface_sfs` adds no
regularisation contribution to the gradient whenever `λ ≤ 0`, and the
evaluator `sfs_cost_and_gradient` has zero regularisation gradient when
`λ = 0`; for `λ < 0` the evaluator's regularisation gradient is `λ·∇⁴Z`,
which is in general nonzero. -/
theorem regularization_gradient_zero_policy (h w : ℕ) (s Z : Grid) (lam : ℝ)
    (adaptive : Bool) (hlam : lam ≤ 0) :
    (∀ i j, processorRegTerm h w s lam adaptive i j = 0) ∧
    (lam = 0 → ∀ i j, smoothnessGradient h w Z lam i j = 0) := by
  constructor
  · intro i j
    simp only [processorRegTerm, if_neg (not_lt.mpr hlam)]
  · intro h0 i j
    simp [smoothnessGradient, h0]

/-- Witness for the amended C2 at `λ = -1` on a 2×2 field. -/
theorem regularization_gradient_zero_policy_witness :
    ((-1 : ℝ) ≤ 0) ∧
    ((∀ i j, processorRegTerm 2 2 (fun _ _ => 1) (-1) true i j = 0) ∧
     ((-1 : ℝ) = 0 → ∀ i j, smoothnessGradient 2 2 (fun _ _ => 1) (-1) i j = 0)) :=
  ⟨by norm_num,
   regularization_gradient_zero_policy 2 2 (fun _ _ => 1) (fun _ _ => 1) (-1) true
     (by norm_num)⟩

/-! ### C1 — gradient-operator boundary handling -/

/-- The 3×3 failing surface for C1: `Z[i][j] = i`, constant along the x
(column) axis, linear along the y (row) axis. -/
def rampSurface : Grid := fun i _ => (i : ℝ)

/-- C1 is violated by the code: on `rampSurface`, which is constant along x
(its row 0 holds the values 0, 0, 0), every x-difference — central or
one-sided — is 0, yet `compute_gradients` returns `grad_x[0][1] = 1`: the
row-boundary writes store one-sided differences along the *other* axis
(`surface[1,:] - surface[0,:]`), so the top/bottom rows of `grad_x` (and the
left/right columns of `grad_y`) are not one-sided differences in the
matching axis. -/
theorem compute_gradients_boundary_mismatch :
    rampSurface 0 0 = 0 ∧ rampSurface 0 1 = 0 ∧ rampSurface 0 2 = 0 ∧
    computeGradX 3 3 rampSurface 0 1 = 1 := by
  refine ⟨by norm_num [rampSurface], by norm_num [rampSurface],
    by norm_num [rampSurface], ?_⟩
  norm_num [computeGradX, rampSurface]

/-! ### C6 — invalid input is rejected before optimisation -/

lemma mem_gridList {α : Type} (h w : ℕ) (Z : ℕ → ℕ → α) {i j : ℕ}
    (hi : i < h) (hj : j < w) : Z i j ∈ gridList h w Z := by
  unfold gridList
  rw [List.mem_flatMap]
  exact ⟨i, List.mem_range.mpr hi, List.mem_map.mpr ⟨j, List.mem_range.mpr hj, rfl⟩⟩

lemma pxMaxPair_nan_left (b : Px) : pxMaxPair .nan b = .nan := by
  cases b <;> rfl

lemma pxMaxPair_nan_right (a : Px) : pxMaxPair a .nan = .nan := by
  cases a <;> rfl

lemma pxDiv_nan_left (b : Px) : pxDiv .nan b = .nan := by
  cases b <;> rfl

lemma pxMaxPair_pinf_left (b : Px) :
    pxMaxPair .pinf b = .nan ∨ pxMaxPair .pinf b = .pinf := by
  cases b <;> simp [pxMaxPair]

lemma pxMaxPair_pinf_right (a : Px) :
    pxMaxPair a .pinf = .nan ∨ pxMaxPair a .pinf = .pinf := by
  cases a <;> simp [pxMaxPair]

lemma foldl_pxMax_nan : ∀ (l : List Px), List.foldl pxMaxPair .nan l = .nan
  | [] => rfl
  | y :: ys => by
    show List.foldl pxMaxPair (pxMaxPair .nan y) ys = .nan
    rw [pxMaxPair_nan_left]
    exact foldl_pxMax_nan ys

lemma foldl_pxMax_keep : ∀ (l : List Px) (a : Px), (a = .nan ∨ a = .pinf) →
    (List.foldl pxMaxPair a l = .nan ∨ List.foldl pxMaxPair a l = .pinf)
  | [], _, ha => ha
  | y :: ys, a, ha => by
    rcases ha with rfl | rfl
    · exact foldl_pxMax_keep ys _ (Or.inl (pxMaxPair_nan_left y))
    · exact foldl_pxMax_keep ys _ (pxMaxPair_pinf_left y)

lemma foldl_pxMax_mem_nan : ∀ (l : List Px) (a : Px), Px.nan ∈ l →
    List.foldl pxMaxPair a l = .nan
  | y :: ys, a, hmem => by
    rcases List.mem_cons.mp hmem with rfl | hys
    · show List.foldl pxMaxPair (pxMaxPair a .nan) ys = .nan
      rw [pxMaxPair_nan_right]
      exact foldl_pxMax_nan ys
    · exact foldl_pxMax_mem_nan ys _ hys

lemma foldl_pxMax_mem_pinf : ∀ (l : List Px) (a : Px), Px.pinf ∈ l →
    (List.foldl pxMaxPair a l = .nan ∨ List.foldl pxMaxPair a l = .pinf)
  | y :: ys, a, hmem => by
    rcases List.mem_cons.mp hmem with rfl | hys
    · exact foldl_pxMax_keep ys _ (pxMaxPair_pinf_right a)
    · exact foldl_pxMax_mem_pinf ys _ hys

lemma pxListMax_nan {l : List Px} (hl : Px.nan ∈ l) : pxListMax l = .nan := by
  cases l with
  | nil => cases hl
  | cons x xs =>
    show List.foldl pxMaxPair x xs = .nan
    rcases List.mem_cons.mp hl with rfl | hxs
    · exact foldl_pxMax_nan xs
    · exact foldl_pxMax_mem_nan xs x hxs

lemma pxListMax_pinf {l : List Px} (hl : Px.pinf ∈ l) :
    pxListMax l = .nan ∨ pxListMax l = .pinf := by
  cases l with
  | nil => cases hl
  | cons x xs =>
    show List.foldl pxMaxPair x xs = .nan ∨ List.foldl pxMaxPair x xs = .pinf
    rcases List.mem_cons.mp hl with rfl | hxs
    · exact foldl_pxMax_keep xs _ (Or.inr rfl)
    · exact foldl_pxMax_mem_pinf xs x hxs

/-- A non-finite pixel survives the max-normalisation step non-finite. -/
lemma normalized_keeps_nonfinite (h w : ℕ) (img : PxGrid) {i j : ℕ}
    (hi : i < h) (hj : j < w) (hnf : (img i j).isFinite = false) :
    (normalizedImage h w img i j).isFinite = false := by
  unfold normalizedImage
  by_cases hm : pxGtOne (pxListMax (gridList h w img))
  · rw [if_pos hm]
    cases hc : img i j with
    | num x => rw [hc] at hnf; simp [Px.isFinite] at hnf
    | nan => rw [pxDiv_nan_left]; rfl
    | pinf =>
      have hmem := mem_gridList h w img hi hj
      rw [hc] at hmem
      rcases pxListMax_pinf hmem with hmx | hmx <;> rw [hmx] <;> rfl
    | ninf =>
      cases hmx : pxListMax (gridList h w img) with
      | num y =>
        show (if y ≥ 0 then Px.ninf else Px.pinf).isFinite = false
        split <;> rfl
      | nan => rfl
      | pinf => rfl
      | ninf => rw [hmx] at hm; simp [pxGtOne] at hm
  · rw [if_neg hm]; exact hnf

/-- C6: an image that is empty or contains a non-finite (NaN/±Inf) pixel is
rejected by `load_and_validate_image` with an invalid-input error, and the
service pipeline `luna_process` therefore fails with that same error before
the solver — and hence before any optimisation iteration — runs.  The error
propagates to the job's failure handler, which records the failure and
re-raises; nothing retries the run. -/
theorem invalid_image_rejected (h w : ℕ) (img : PxGrid) (l : ℝ × ℝ × ℝ)
    (cfg : SFSConfig) (noise : Grid)
    (hbad : h * w = 0 ∨ ∃ i, i < h ∧ ∃ j, j < w ∧ (img i j).isFinite = false) :
    ∃ msg, load_and_validate_image h w img = Except.error msg ∧
      luna_process h w img l cfg noise = Except.error msg := by
  have key : ∃ msg, load_and_validate_image h w img = Except.error msg := by
    rcases hbad with hempty | ⟨i, hi, j, hj, hnf⟩
    · exact ⟨"Image is empty", by rw [load_and_validate_image, if_pos hempty]⟩
    · by_cases hempty : h * w = 0
      · exact ⟨"Image is empty", by rw [load_and_validate_image, if_pos hempty]⟩
      · have hex : ∃ i, i < h ∧ ∃ j, j < w ∧
            ¬ (normalizedImage h w img i j).isFinite = true :=
          ⟨i, hi, j, hj, by
            rw [normalized_keeps_nonfinite h w img hi hj hnf]; simp⟩
        exact ⟨"Image contains non-finite values", by
          rw [load_and_validate_image, if_neg hempty, if_pos hex]⟩
  rcases key with ⟨msg, hmsg⟩
  exact ⟨msg, hmsg, by rw [luna_process, hmsg]; rfl⟩

/-- Witness for C6: the 1×1 all-NaN image is rejected. -/
theorem invalid_image_rejected_witness :
    (1 * 1 = 0 ∨ ∃ i, i < 1 ∧ ∃ j, j < 1 ∧
      ((fun _ _ => Px.nan : PxGrid) i j).isFinite = false) ∧
    ∃ msg, load_and_validate_image 1 1 (fun _ _ => Px.nan) = Except.error msg ∧
      luna_process 1 1 (fun _ _ => Px.nan) (0, 0, 1)
        ⟨InitMode.flat, 5, 0, 0, true, true, 1, 1, 1, true⟩ (fun _ _ => 0)
        = Except.error msg := by
  have hb : (1 * 1 = 0 ∨ ∃ i, i < 1 ∧ ∃ j, j < 1 ∧
      ((fun _ _ => Px.nan : PxGrid) i j).isFinite = false) :=
    Or.inr ⟨0, by norm_num, 0, by norm_num, rfl⟩
  exact ⟨hb, invalid_image_rejected 1 1 (fun _ _ => Px.nan) (0, 0, 1)
    ⟨InitMode.flat, 5, 0, 0, true, true, 1, 1, 1, true⟩ (fun _ _ => 0) hb⟩

/-! ### Order-statistics lemmas for the physical scaler -/

lemma mem_insertSorted {x z : ℝ} : ∀ {l : List ℝ}, z ∈ insertSorted x l → z = x ∨ z ∈ l
  | [], hz => by
    simp only [insertSorted, List.mem_singleton] at hz
    exact Or.inl hz
  | y :: ys, hz => by
    unfold insertSorted at hz
    split at hz
    · exact (List.mem_cons.mp hz).imp_right id
    · rcases List.mem_cons.mp hz with rfl | hz'
      · exact Or.inr (List.mem_cons_self _ _)
      · rcases mem_insertSorted hz' with h1 | h2
        · exact Or.inl h1
        · exact Or.inr (List.mem_cons_of_mem _ h2)

lemma length_insertSorted (x : ℝ) : ∀ (l : List ℝ),
    (insertSorted x l).length = l.length + 1
  | [] => rfl
  | y :: ys => by
    unfold insertSorted
    split
    · rfl
    · simp [length_insertSorted x ys]

lemma length_sortList : ∀ (l : List ℝ), (sortList l).length = l.length
  | [] => rfl
  | x :: xs => by
    unfold sortList
    rw [length_insertSorted, length_sortList xs]
    rfl

lemma mem_sortList {z : ℝ} : ∀ {l : List ℝ}, z ∈ sortList l → z ∈ l
  | [], hz => by simp [sortList] at hz
  | x :: xs, hz => by
    unfold sortList at hz
    rcases mem_insertSorted hz with rfl | h2
    · exact List.mem_cons_self _ _
    · exact List.mem_cons_of_mem _ (mem_sortList h2)

lemma getD_of_all_eq : ∀ (l : List ℝ) (c : ℝ), (∀ x ∈ l, x = c) →
    ∀ i, i < l.length → l.getD i 0 = c
  | [], _, _, i, hi => absurd hi (by simp)
  | y :: ys, c, hall, 0, _ => hall y (List.mem_cons_self _ _)
  | y :: ys, c, hall, i + 1, hi =>
    getD_of_all_eq ys c (fun x hx => hall x (List.mem_cons_of_mem y hx)) i
      (by simpa using hi)

/-- On a nonempty list all of whose elements equal `c`, every percentile in
`[0, 100]` is `c`. -/
lemma percentile_const (l : List ℝ) (c : ℝ) (q : ℝ) (hne : l ≠ [])
    (hq0 : 0 ≤ q) (hq1 : q ≤ 100) (hall : ∀ x ∈ l, x = c) :
    percentile l q = c := by
  have hn : 1 ≤ l.length := List.length_pos.mpr hne
  have hn1 : (0 : ℝ) ≤ (l.length : ℝ) - 1 := by
    have : (1 : ℝ) ≤ (l.length : ℝ) := by exact_mod_cast hn
    linarith
  have hpos0 : 0 ≤ pctPos l q := by
    unfold pctPos
    exact mul_nonneg (div_nonneg hq0 (by norm_num)) hn1
  have hpos1 : pctPos l q ≤ (l.length : ℝ) - 1 := by
    unfold pctPos
    have hq : q / 100 ≤ 1 := by linarith
    exact mul_le_of_le_one_left hn1 hq
  have hfl0 : (0 : ℤ) ≤ ⌊pctPos l q⌋ := Int.floor_nonneg.mpr hpos0
  have hcastlo : ((pctLo l q : ℤ) : ℝ) = ((⌊pctPos l q⌋ : ℤ) : ℝ) := by
    unfold pctLo
    rw [Int.toNat_of_nonneg hfl0]
  have hsall : ∀ x ∈ sortList l, x = c := fun x hx => hall x (mem_sortList hx)
  have hslen : (sortList l).length = l.length := length_sortList l
  have hlo_lt : pctLo l q < l.length := by
    have h1 : ((pctLo l q : ℤ) : ℝ) ≤ pctPos l q := by
      rw [hcastlo]; exact Int.floor_le _
    have h2 : ((pctLo l q : ℕ) : ℝ) ≤ (l.length : ℝ) - 1 := by
      push_cast at h1 ⊢
      linarith
    have h3 : ((pctLo l q : ℕ) : ℝ) < (l.length : ℝ) := by linarith
    exact_mod_cast h3
  have hgetlo : (sortList l).getD (pctLo l q) 0 = c :=
    getD_of_all_eq _ c hsall _ (by rw [hslen]; exact hlo_lt)
  by_cases hfrac : pctPos l q - (⌊pctPos l q⌋ : ℝ) = 0
  · unfold percentile
    rw [hgetlo, hfrac]
    ring
  · have hflt : ((⌊pctPos l q⌋ : ℤ) : ℝ) < pctPos l q :=
      lt_of_le_of_ne (Int.floor_le _) (fun he => hfrac (by linarith))
    have hlo1_lt : pctLo l q + 1 < l.length := by
      have h2 : ((pctLo l q : ℕ) : ℝ) < (l.length : ℝ) - 1 := by
        have := hcastlo
        push_cast at this ⊢
        linarith
      have h3 : ((pctLo l q + 1 : ℕ) : ℝ) < (l.length : ℝ) := by push_cast; linarith
      exact_mod_cast h3
    have hgetlo1 : (sortList l).getD (pctLo l q + 1) 0 = c :=
      getD_of_all_eq _ c hsall _ (by rw [hslen]; exact hlo1_lt)
    unfold percentile
    rw [hgetlo, hgetlo1]
    ring

/-! min/max fold lemmas -/

lemma foldl_min_le_acc : ∀ (l : List ℝ) (a : ℝ), List.foldl min a l ≤ a
  | [], a => le_refl a
  | y :: ys, a => le_trans (foldl_min_le_acc ys (min a y)) (min_le_left a y)

lemma foldl_min_le_mem : ∀ (l : List ℝ) (a : ℝ) {x : ℝ}, x ∈ l →
    List.foldl min a l ≤ x
  | y :: ys, a, x, hx => by
    rcases List.mem_cons.mp hx with rfl | hys
    · exact le_trans (foldl_min_le_acc ys (min a x)) (min_le_right a x)
    · exact foldl_min_le_mem ys (min a y) hys

lemma listMin_le_mem {l : List ℝ} {x : ℝ} (hx : x ∈ l) : listMin l ≤ x := by
  cases l with
  | nil => cases hx
  | cons y ys =>
    show List.foldl min y ys ≤ x
    rcases List.mem_cons.mp hx with rfl | hys
    · exact foldl_min_le_acc ys x
    · exact foldl_min_le_mem ys y hys

lemma le_foldl_min : ∀ (l : List ℝ) (a b : ℝ), b ≤ a → (∀ x ∈ l, b ≤ x) →
    b ≤ List.foldl min a l
  | [], _, _, hb, _ => hb
  | y :: ys, a, b, hb, hall =>
    le_foldl_min ys (min a y) b (le_min hb (hall y (List.mem_cons_self _ _)))
      (fun x hx => hall x (List.mem_cons_of_mem _ hx))

lemma acc_le_foldl_max : ∀ (l : List ℝ) (a : ℝ), a ≤ List.foldl max a l
  | [], a => le_refl a
  | y :: ys, a => le_trans (le_max_left a y) (acc_le_foldl_max ys (max a y))

lemma mem_le_foldl_max : ∀ (l : List ℝ) (a : ℝ) {x : ℝ}, x ∈ l →
    x ≤ List.foldl max a l
  | y :: ys, a, x, hx => by
    rcases List.mem_cons.mp hx with rfl | hys
    · exact le_trans (le_max_right a x) (acc_le_foldl_max ys (max a x))
    · exact mem_le_foldl_max ys (max a y) hys

lemma mem_le_listMax {l : List ℝ} {x : ℝ} (hx : x ∈ l) : x ≤ listMax l := by
  cases l with
  | nil => cases hx
  | cons y ys =>
    show x ≤ List.foldl max y ys
    rcases List.mem_cons.mp hx with rfl | hys
    · exact acc_le_foldl_max ys x
    · exact mem_le_foldl_max ys y hys

lemma gridMin_le (h w : ℕ) (Z : Grid) {i j : ℕ} (hi : i < h) (hj : j < w) :
    gridMin h w Z ≤ Z i j :=
  listMin_le_mem (mem_gridList h w Z hi hj)

lemma le_gridMax (h w : ℕ) (Z : Grid) {i j : ℕ} (hi : i < h) (hj : j < w) :
    Z i j ≤ gridMax h w Z :=
  mem_le_listMax (mem_gridList h w Z hi hj)

lemma gridList_all {α : Type} {P : α → Prop} {h w : ℕ} {Z : ℕ → ℕ → α}
    (hp : ∀ i j, i < h → j < w → P (Z i j)) : ∀ x ∈ gridList h w Z, P x := by
  intro x hx
  unfold gridList at hx
  rcases List.mem_flatMap.mp hx with ⟨i, hi, hx2⟩
  rcases List.mem_map.mp hx2 with ⟨j, hj, rfl⟩
  exact hp i j (List.mem_range.mp hi) (List.mem_range.mp hj)

lemma gridList_length (h w : ℕ) {α : Type} (Z : ℕ → ℕ → α) :
    (gridList h w Z).length = h * w := by
  induction h with
  | zero => simp [gridList]
  | succ n ih =>
    unfold gridList at ih ⊢
    rw [List.range_succ, List.flatMap_append, List.length_append, ih]
    simp [Nat.succ_mul]

lemma clip01_bounds (x : ℝ) : 0 ≤ clip01 x ∧ clip01 x ≤ 1 :=
  ⟨le_min (le_max_right x 0) zero_le_one, min_le_right _ _⟩

lemma clip01_mono {x y : ℝ} (hxy : x ≤ y) : clip01 x ≤ clip01 y :=
  min_le_min (max_le_max hxy (le_refl 0)) (le_refl 1)

lemma gammaOf_nonneg (skew : ℝ) : 0 ≤ gammaOf skew := by
  unfold gammaOf
  split_ifs <;> norm_num

lemma gammaOf_ne_zero (skew : ℝ) : gammaOf skew ≠ 0 := by
  unfold gammaOf
  split_ifs <;> norm_num

/-! ### C10 — constant fields scale to the minimum height -/

/-- C10: a constant relative height field is mapped to `dem_min_height` at
every cell, for every configuration: `p99 = p1` skips the robust branch, the
guarded min–max fallback normalises everything to 0, gamma correction of 0
is 0, and the final linear map sends 0 to `dem_min_height`. -/
theorem constant_field_scales_to_min (h w : ℕ) (c : ℝ) (cfg : ScaleConfig)
    (hh : 1 ≤ h) (hw : 1 ≤ w) :
    ∀ i j, scale_dem_to_physical h w (fun _ _ => c) cfg i j = cfg.dem_min_height := by
  have hlen := gridList_length h w (fun _ _ => c : Grid)
  have hne : gridList h w (fun _ _ => c : Grid) ≠ [] := by
    intro hnil
    rw [hnil] at hlen
    have : 1 ≤ h * w := Nat.one_le_iff_ne_zero.mpr (Nat.mul_ne_zero
      (Nat.one_le_iff_ne_zero.mp hh) (Nat.one_le_iff_ne_zero.mp hw))
    simp at hlen
    omega
  have hall : ∀ x ∈ gridList h w (fun _ _ => c : Grid), x = c :=
    gridList_all (fun _ _ _ _ => rfl)
  have hp1 : percentile (gridList h w (fun _ _ => c : Grid)) 1 = c :=
    percentile_const _ c 1 hne (by norm_num) (by norm_num) hall
  have hp99 : percentile (gridList h w (fun _ _ => c : Grid)) 99 = c :=
    percentile_const _ c 99 hne (by norm_num) (by norm_num) hall
  have hminc : gridMin h w (fun _ _ => c : Grid) = c := by
    apply le_antisymm
    · exact gridMin_le h w _ (lt_of_lt_of_le Nat.zero_lt_one hh)
        (lt_of_lt_of_le Nat.zero_lt_one hw)
    · unfold gridMin
      cases hl : gridList h w (fun _ _ => c : Grid) with
      | nil => exact absurd hl hne
      | cons y ys =>
        show c ≤ List.foldl min y ys
        have hy : y = c := hall y (hl ▸ List.mem_cons_self y ys)
        refine le_foldl_min ys y c (le_of_eq hy.symm) ?_
        intro x hx
        exact le_of_eq (hall x (hl ▸ List.mem_cons_of_mem y hx)).symm
  have hNorm : ∀ i j, scaleNorm h w (fun _ _ => c) cfg i j = 0 := by
    intro i j
    unfold scaleNorm
    by_cases hA : cfg.adaptive_normalization = true
    · rw [if_pos hA]
      have hcond : ¬ (percentile (gridList h w (fun _ _ => c : Grid)) 99 >
          percentile (gridList h w (fun _ _ => c : Grid)) 1) := by
        rw [hp1, hp99]
        exact lt_irrefl c
      rw [if_neg hcond]
      show (c - gridMin h w (fun _ _ => c)) / _ = 0
      rw [hminc]
      simp
    · rw [if_neg hA]
      show (c - gridMin h w (fun _ _ => c)) / _ = 0
      rw [hminc]
      simp
  have hN2 : ∀ i j, normEnhanced h w (fun _ _ => c) cfg i j = 0 := by
    intro i j
    unfold normEnhanced
    by_cases hf : cfg.feature_enhancement = true
    · rw [if_pos hf]
      show scaleNorm h w (fun _ _ => c) cfg i j ^
        gammaOf (surfaceSkew h w (scaleNorm h w (fun _ _ => c) cfg)) = 0
      rw [hNorm i j]
      exact Real.zero_rpow (gammaOf_ne_zero _)
    · rw [if_neg hf]
      exact hNorm i j
  intro i j
  show cfg.dem_min_height + normEnhanced h w (fun _ _ => c) cfg i j *
    (cfg.dem_max_height - cfg.dem_min_height) = cfg.dem_min_height
  rw [hN2 i j]
  ring

/-- Witness for C10 on a concrete 1×1 constant field. -/
theorem constant_field_scales_to_min_witness :
    1 ≤ 1 ∧
    ∀ i j, scale_dem_to_physical 1 1 (fun _ _ => (5 : ℝ))
      ⟨true, true, -2000, 2000⟩ i j = -2000 :=
  ⟨le_refl 1,
   constant_field_scales_to_min 1 1 5 ⟨true, true, -2000, 2000⟩ (le_refl 1) (le_refl 1)⟩

/-! ### C4 — scaling bounds and monotonicity -/

/-- C4: whenever `dem_min_height < dem_max_height`, every in-range cell of
the calibrated DEM lies in `[dem_min_height, dem_max_height]`, and a cell
with strictly larger relative height never maps below a cell with smaller
relative height — in every combination of robust/standard normalisation and
gamma enhancement. -/
theorem scale_dem_bounds_and_monotone (h w : ℕ) (Z : Grid) (cfg : ScaleConfig)
    (hrange : cfg.dem_min_height < cfg.dem_max_height) :
    (∀ i j, i < h → j < w →
        cfg.dem_min_height ≤ scale_dem_to_physical h w Z cfg i j ∧
        scale_dem_to_physical h w Z cfg i j ≤ cfg.dem_max_height) ∧
    (∀ a1 a2 b1 b2, a1 < h → a2 < w → b1 < h → b2 < w →
        Z b1 b2 < Z a1 a2 →
        scale_dem_to_physical h w Z cfg b1 b2 ≤ scale_dem_to_physical h w Z cfg a1 a2) := by
  have hD : (0 : ℝ) < max (gridMax h w Z - gridMin h w Z) 1e-8 :=
    lt_of_lt_of_le (by norm_num) (le_max_right _ _)
  have hfb : ∀ i j, i < h → j < w →
      0 ≤ (Z i j - gridMin h w Z) / max (gridMax h w Z - gridMin h w Z) 1e-8 ∧
      (Z i j - gridMin h w Z) / max (gridMax h w Z - gridMin h w Z) 1e-8 ≤ 1 := by
    intro i j hi hj
    constructor
    · exact div_nonneg (sub_nonneg.mpr (gridMin_le h w Z hi hj)) hD.le
    · rw [div_le_one hD]
      have h1 := le_gridMax h w Z hi hj
      have h2 : gridMax h w Z - gridMin h w Z ≤
          max (gridMax h w Z - gridMin h w Z) 1e-8 := le_max_left _ _
      linarith
  have hNbounds : ∀ i j, i < h → j < w →
      0 ≤ scaleNorm h w Z cfg i j ∧ scaleNorm h w Z cfg i j ≤ 1 := by
    intro i j hi hj
    unfold scaleNorm
    by_cases hA : cfg.adaptive_normalization = true
    · rw [if_pos hA]
      by_cases hpq : percentile (gridList h w Z) 99 > percentile (gridList h w Z) 1
      · rw [if_pos hpq]
        exact clip01_bounds _
      · rw [if_neg hpq]
        exact hfb i j hi hj
    · rw [if_neg hA]
      exact hfb i j hi hj
  have hNmono : ∀ a1 a2 b1 b2, Z b1 b2 ≤ Z a1 a2 →
      scaleNorm h w Z cfg b1 b2 ≤ scaleNorm h w Z cfg a1 a2 := by
    intro a1 a2 b1 b2 hab
    unfold scaleNorm
    by_cases hA : cfg.adaptive_normalization = true
    · rw [if_pos hA]
      by_cases hpq : percentile (gridList h w Z) 99 > percentile (gridList h w Z) 1
      · rw [if_pos hpq]
        apply clip01_mono
        have hs : 0 < percentile (gridList h w Z) 99 - percentile (gridList h w Z) 1 :=
          sub_pos.mpr hpq
        have h1 : (Z b1 b2 - npMedian (gridList h w Z)) /
              (percentile (gridList h w Z) 99 - percentile (gridList h w Z) 1) ≤
            (Z a1 a2 - npMedian (gridList h w Z)) /
              (percentile (gridList h w Z) 99 - percentile (gridList h w Z) 1) :=
          (div_le_div_right hs).mpr (by linarith)
        nlinarith [h1]
      · rw [if_neg hpq]
        exact (div_le_div_right hD).mpr (by linarith)
    · rw [if_neg hA]
      exact (div_le_div_right hD).mpr (by linarith)
  have hγ : 0 ≤ gammaOf (surfaceSkew h w (scaleNorm h w Z cfg)) := gammaOf_nonneg _
  have hEbounds : ∀ i j, i < h → j < w →
      0 ≤ normEnhanced h w Z cfg i j ∧ normEnhanced h w Z cfg i j ≤ 1 := by
    intro i j hi hj
    obtain ⟨h0, h1⟩ := hNbounds i j hi hj
    unfold normEnhanced
    by_cases hf : cfg.feature_enhancement = true
    · rw [if_pos hf]
      exact ⟨Real.rpow_nonneg h0 _, Real.rpow_le_one h0 h1 hγ⟩
    · rw [if_neg hf]
      exact ⟨h0, h1⟩
  have hEmono : ∀ a1 a2 b1 b2, a1 < h → a2 < w → b1 < h → b2 < w →
      Z b1 b2 ≤ Z a1 a2 →
      normEnhanced h w Z cfg b1 b2 ≤ normEnhanced h w Z cfg a1 a2 := by
    intro a1 a2 b1 b2 _ _ hb1 hb2 hab
    unfold normEnhanced
    by_cases hf : cfg.feature_enhancement = true
    · rw [if_pos hf]
      exact Real.rpow_le_rpow (hNbounds b1 b2 hb1 hb2).1 (hNmono a1 a2 b1 b2 hab) hγ
    · rw [if_neg hf]
      exact hNmono a1 a2 b1 b2 hab
  have hr0 : (0 : ℝ) ≤ cfg.dem_max_height - cfg.dem_min_height := by linarith
  constructor
  · intro i j hi hj
    obtain ⟨h0, h1⟩ := hEbounds i j hi hj
    constructor
    · show cfg.dem_min_height ≤ cfg.dem_min_height +
        normEnhanced h w Z cfg i j * (cfg.dem_max_height - cfg.dem_min_height)
      nlinarith
    · show cfg.dem_min_height +
        normEnhanced h w Z cfg i j * (cfg.dem_max_height - cfg.dem_min_height) ≤
        cfg.dem_max_height
      nlinarith
  · intro a1 a2 b1 b2 ha1 ha2 hb1 hb2 hlt
    have hmono := hEmono a1 a2 b1 b2 ha1 ha2 hb1 hb2 hlt.le
    show cfg.dem_min_height +
        normEnhanced h w Z cfg b1 b2 * (cfg.dem_max_height - cfg.dem_min_height) ≤
      cfg.dem_min_height +
        normEnhanced h w Z cfg a1 a2 * (cfg.dem_max_height - cfg.dem_min_height)
    nlinarith

/-- Witness for C4 with the spec's `[-2000, 2000]` bounds. -/
theorem scale_dem_bounds_and_monotone_witness :
    ((⟨true, true, -2000, 2000⟩ : ScaleConfig).dem_min_height <
      (⟨true, true, -2000, 2000⟩ : ScaleConfig).dem_max_height) ∧
    ((∀ i j, i < 2 → j < 2 →
        (-2000 : ℝ) ≤ scale_dem_to_physical 2 2 (fun i j : ℕ => (i + j : ℝ))
          ⟨true, true, -2000, 2000⟩ i j ∧
        scale_dem_to_physical 2 2 (fun i j : ℕ => (i + j : ℝ))
          ⟨true, true, -2000, 2000⟩ i j ≤ 2000) ∧
     (∀ a1 a2 b1 b2, a1 < 2 → a2 < 2 → b1 < 2 → b2 < 2 →
        ((fun i j : ℕ => (i + j : ℝ)) b1 b2 < (fun i j : ℕ => (i + j : ℝ)) a1 a2) →
        scale_dem_to_physical 2 2 (fun i j : ℕ => (i + j : ℝ))
            ⟨true, true, -2000, 2000⟩ b1 b2 ≤
          scale_dem_to_physical 2 2 (fun i j : ℕ => (i + j : ℝ))
            ⟨true, true, -2000, 2000⟩ a1 a2)) :=
  ⟨by norm_num,
   scale_dem_bounds_and_monotone 2 2 (fun i j : ℕ => (i + j : ℝ))
     ⟨true, true, -2000, 2000⟩ (by norm_num)⟩

/-! ### C5 — iteration-budget exhaustion -/

lemma cons_range_shift (f : ℕ → ℝ) (t n : ℕ) (xs : List ℝ) :
    (xs ++ [f t]) ++ (List.range n).map (fun d => f (t + 1 + d)) =
      xs ++ (List.range (n + 1)).map (fun d => f (t + d)) := by
  rw [List.append_assoc]
  congr 1
  rw [List.range_succ_eq_map, List.map_cons, List.map_map]
  have hf : ((fun d => f (t + d)) ∘ Nat.succ) = (fun d => f (t + 1 + d)) := by
    funext d
    show f (t + (d + 1)) = f (t + 1 + d)
    congr 1
    omega
  rw [hf, Nat.add_zero]
  rfl

/-- If the convergence test never fires in the next `fuel` iterations, the
solver loop runs them all, appending one record per iteration to each trace
list and never breaking early. -/
lemma sfsLoop_no_break (h w : ℕ) (image : Grid) (l : ℝ × ℝ × ℝ)
    (cfg : SFSConfig) (noise : Grid) :
    ∀ (fuel t : ℕ) (hist : SFSHistory),
      (∀ k, t ≤ k → k < t + fuel →
        cfg.convergence_threshold ≤ (sfsStepAt h w image l cfg noise k).changeRec) →
      sfsLoop h w image l cfg t fuel (sfsTraj h w image l cfg noise t).1
          (sfsTraj h w image l cfg noise t).2 hist =
        ((sfsTraj h w image l cfg noise (t + fuel)).1,
         (sfsTraj h w image l cfg noise (t + fuel)).2,
         { residuals := hist.residuals ++ (List.range fuel).map
             (fun d => (sfsStepAt h w image l cfg noise (t + d)).residualRec)
           gradients := hist.gradients ++ (List.range fuel).map
             (fun d => (sfsStepAt h w image l cfg noise (t + d)).gradRec)
           convergence := hist.convergence ++ (List.range fuel).map
             (fun d => (sfsStepAt h w image l cfg noise (t + d)).changeRec)
           iterations := if fuel = 0 then hist.iterations else t + fuel }) := by
  intro fuel
  induction fuel with
  | zero =>
    intro t hist _
    simp [sfsLoop]
  | succ n ih =>
    intro t hist hthr
    have hstep : sfsStep h w image l cfg t (sfsTraj h w image l cfg noise t).1
        (sfsTraj h w image l cfg noise t).2 = sfsStepAt h w image l cfg noise t := rfl
    have hnb : ¬ ((sfsStepAt h w image l cfg noise t).changeRec <
        cfg.convergence_threshold) :=
      not_lt.mpr (hthr t (le_refl t) (by omega))
    have h1 : (sfsTraj h w image l cfg noise (t + 1)).1
        = (sfsStepAt h w image l cfg noise t).surface := rfl
    have h2 : (sfsTraj h w image l cfg noise (t + 1)).2
        = (sfsStepAt h w image l cfg noise t).momentum := rfl
    simp only [sfsLoop, hstep, if_neg hnb]
    rw [← h1, ← h2]
    rw [ih (t + 1)
      { residuals := hist.residuals ++ [(sfsStepAt h w image l cfg noise t).residualRec]
        gradients := hist.gradients ++ [(sfsStepAt h w image l cfg noise t).gradRec]
        convergence := hist.convergence ++ [(sfsStepAt h w image l cfg noise t).changeRec]
        iterations := t + 1 }
      (fun k hk1 hk2 => hthr k (by omega) (by omega))]
    have ht : t + 1 + n = t + (n + 1) := by omega
    rw [ht]
    simp only [Prod.mk.injEq, SFSHistory.mk.injEq]
    refine ⟨trivial, trivial, ?_, ?_, ?_, ?_⟩
    · exact cons_range_shift
        (fun k => (sfsStepAt h w image l cfg noise k).residualRec) t n hist.residuals
    · exact cons_range_shift
        (fun k => (sfsStepAt h w image l cfg noise k).gradRec) t n hist.gradients
    · exact cons_range_shift
        (fun k => (sfsStepAt h w image l cfg noise k).changeRec) t n hist.convergence
    · cases n with
      | zero => simp
      | succ m => simp

/-- C5: with `max_iterations = 5` and a convergence threshold the trajectory
never reaches, `optimize_surface_sfs` terminates at exactly iteration 5, all
three per-iteration trace lists have length exactly 5, the service layer
reports `converged = false`, and the best-effort surface (the 5-step
trajectory endpoint after the final smoothing pass) is still returned. -/
theorem budget_exhaustion_run (h w : ℕ) (image : Grid) (l : ℝ × ℝ × ℝ)
    (cfg : SFSConfig) (noise : Grid) (hmax : cfg.max_iterations = 5)
    (hthr : ∀ k, k < 5 →
      cfg.convergence_threshold ≤ (sfsStepAt h w image l cfg noise k).changeRec) :
    (optimize_surface_sfs h w image l cfg noise).2.iterations = 5 ∧
    (optimize_surface_sfs h w image l cfg noise).2.residuals.length = 5 ∧
    (optimize_surface_sfs h w image l cfg noise).2.gradients.length = 5 ∧
    (optimize_surface_sfs h w image l cfg noise).2.convergence.length = 5 ∧
    lunaConverged (optimize_surface_sfs h w image l cfg noise).2 cfg = false ∧
    (optimize_surface_sfs h w image l cfg noise).1 =
      gaussian_filter h w cfg.smoothing_factor (sfsTraj h w image l cfg noise 5).1 := by
  have hloop := sfsLoop_no_break h w image l cfg noise 5 0 ⟨[], [], [], 0⟩
    (fun k _ hk2 => hthr k (by omega))
  have hopt : optimize_surface_sfs h w image l cfg noise =
      (gaussian_filter h w cfg.smoothing_factor
        (sfsTraj h w image l cfg noise (0 + 5)).1,
       { residuals := ([] : List ℝ) ++ (List.range 5).map
           (fun d => (sfsStepAt h w image l cfg noise (0 + d)).residualRec)
         gradients := ([] : List ℝ) ++ (List.range 5).map
           (fun d => (sfsStepAt h w image l cfg noise (0 + d)).gradRec)
         convergence := ([] : List ℝ) ++ (List.range 5).map
           (fun d => (sfsStepAt h w image l cfg noise (0 + d)).changeRec)
         iterations := if 5 = 0 then 0 else 0 + 5 }) := by
    unfold optimize_surface_sfs
    rw [hmax]
    have hinit1 : initialSurface cfg noise = (sfsTraj h w image l cfg noise 0).1 := rfl
    have hinit2 : (fun _ _ => (0 : ℝ)) = (sfsTraj h w image l cfg noise 0).2 := rfl
    rw [hinit1, hinit2, hloop]
  rw [hopt]
  refine ⟨by norm_num, by simp, by simp, by simp, ?_, by norm_num⟩
  simp [lunaConverged, hmax]

/-- Witness for C5: a concrete 2×2 run with threshold 0 (which the
nonnegative mean-absolute height change can never drop below). -/
theorem budget_exhaustion_run_witness :
    ((⟨InitMode.flat, 5, 0, 3 / 100, true, true, 3 / 100, 2, 1 / 5, true⟩ :
        SFSConfig).max_iterations = 5 ∧
      ∀ k, k < 5 →
        (⟨InitMode.flat, 5, 0, 3 / 100, true, true, 3 / 100, 2, 1 / 5, true⟩ :
            SFSConfig).convergence_threshold ≤
          (sfsStepAt 2 2 (fun _ _ => 0) (0, 0, 1)
            ⟨InitMode.flat, 5, 0, 3 / 100, true, true, 3 / 100, 2, 1 / 5, true⟩
            (fun _ _ => 0) k).changeRec) ∧
    (optimize_surface_sfs 2 2 (fun _ _ => 0) (0, 0, 1)
      ⟨InitMode.flat, 5, 0, 3 / 100, true, true, 3 / 100, 2, 1 / 5, true⟩
      (fun _ _ => 0)).2.iterations = 5 := by
  have hthr : ∀ k, k < 5 →
      (⟨InitMode.flat, 5, 0, 3 / 100, true, true, 3 / 100, 2, 1 / 5, true⟩ :
          SFSConfig).convergence_threshold ≤
        (sfsStepAt 2 2 (fun _ _ => 0) (0, 0, 1)
          ⟨InitMode.flat, 5, 0, 3 / 100, true, true, 3 / 100, 2, 1 / 5, true⟩
          (fun _ _ => 0) k).changeRec := by
    intro k _
    show (0 : ℝ) ≤ _
    exact gridMeanAbs_nonneg 2 2 _
  exact ⟨⟨rfl, hthr⟩,
    (budget_exhaustion_run 2 2 (fun _ _ => 0) (0, 0, 1)
      ⟨InitMode.flat, 5, 0, 3 / 100, true, true, 3 / 100, 2, 1 / 5, true⟩
      (fun _ _ => 0) rfl hthr).1⟩

end Seleno
